import Mathlib

/-!
Shallow embedding of the ghost AI core of the Pyc-Man repository
(src/src/ghost.py and src/src/position.py).  The external collaborators
that ghost.py imports but that are not shipped under src — settings.py,
direction.py and game_map.py — are modelled from the specification and
carry a doc comment saying so.

Coordinates are exact rationals.  The single irrational operation in
the source, the square root inside Position.distance_to, is dropped by
working with squared distances throughout: every use of distance_to in
the embedded code either compares two distances or compares a distance
with the nonnegative constant TILE_SIZE, and squaring is strictly
monotone on nonnegative reals, so every comparison outcome agrees with
the source.  Likewise the loop in Ghost._choose_direction keeps its
running best distance as a value of WithTop the rationals, with the
top element standing for the float infinity used by the source.
-/

namespace PycMan

/-- Modelled from the spec: settings.py is absent from src/.  The spec
glossary fixes a tile as a fixed-size square cell, and all worked
examples of sections 4.3 and 8 of the spec use tile size 20. -/
def TILE_SIZE : ℚ := 20

/-- Modelled from the spec: settings.py is absent from src/.  The base
ghost speed; per section 4.2 of the spec it lies strictly between the
frightened speed 1 and the eaten return speed 4 that are hard-coded in
ghost.py.  Its exact value is irrelevant to every claim: only the fact
that the same constant is restored matters. -/
def GHOST_SPEED : ℚ := 2

/-- Modelled from the spec: settings.py is absent from src/.  Section 8
of the spec equates the right screen edge with the map width in tiles
times the tile size; the exact value is irrelevant to the claims. -/
def SCREEN_WIDTH : ℚ := 600

/-- Modelled from the spec: settings.py is absent from src/.  Section
4.3 of the spec fixes the pincer lookahead at 2 tiles. -/
def INKY_OFFSET_TILES : ℚ := 2

/-- Modelled from the spec: direction.py is absent from src/.  Section 3
of the spec: one of UP, DOWN, LEFT, RIGHT, NONE, each mapped to an
integer unit vector.  Pygame screen coordinates grow downward, and
ghost.py moves toward the house exit above by decreasing y, so UP
carries the vector (0, -1). -/
inductive Direction where
  | UP
  | DOWN
  | LEFT
  | RIGHT
  | NONE
deriving DecidableEq, Repr

/-- The unit vector of a direction. -/
def Direction.vec : Direction → ℤ × ℤ
  | .UP => (0, -1)
  | .DOWN => (0, 1)
  | .LEFT => (-1, 0)
  | .RIGHT => (1, 0)
  | .NONE => (0, 0)

/-- Position from src/src/position.py: a pair of pixel coordinates. -/
structure Position where
  x : ℚ
  y : ℚ
deriving DecidableEq, Repr

/-- Position.to_grid from position.py: floor-divide both coordinates by
the tile size. -/
def Position.to_grid (p : Position) : ℤ × ℤ :=
  (⌊p.x / TILE_SIZE⌋, ⌊p.y / TILE_SIZE⌋)

/-- Position.get_center from position.py: it adds half a tile to both
raw coordinates, without quantizing to the tile grid. -/
def Position.get_center (p : Position) : ℚ × ℚ :=
  (p.x + TILE_SIZE / 2, p.y + TILE_SIZE / 2)

/-- The square of Position.distance_to from position.py, which returns
the square root of this quantity.  Every use in ghost.py is a
comparison of distances, so the square is a faithful embedding. -/
def Position.distance_to_sq (p q : Position) : ℚ :=
  (p.get_center.1 - q.get_center.1) ^ 2 + (p.get_center.2 - q.get_center.2) ^ 2

/-- Plain squared Euclidean distance between two pixel positions, used
on the specification side of the claims. -/
def sq_dist (p q : Position) : ℚ := (p.x - q.x) ^ 2 + (p.y - q.y) ^ 2

/-- Modelled from the spec: game_map.py is absent from src/.  Section 6
of the spec fixes grid_to_pixel as returning the tile center in pixel
space, and the repository tests mock it as g times TILE_SIZE plus half
a tile. -/
def grid_to_pixel (gx gy : ℤ) : Position :=
  ⟨gx * TILE_SIZE + TILE_SIZE / 2, gy * TILE_SIZE + TILE_SIZE / 2⟩

/-- Modelled from the spec glossary: the pixel coordinate at the middle
of the tile containing p, the canonical reference point the spec calls
the tile center. -/
def tile_center (p : Position) : Position :=
  grid_to_pixel p.to_grid.1 p.to_grid.2

/-- The injected grid adapter of spec section 6: width in tiles and the
walkability predicate.  game_map.py is absent from src/ and ghost.py
consumes only this interface, so walkability is an arbitrary field. -/
structure GameMap where
  width : ℤ
  is_walkable : ℤ → ℤ → Bool

/-- GhostState from ghost.py. -/
inductive GhostState where
  | SCATTER
  | CHASE
  | FRIGHTENED
  | EATEN
deriving DecidableEq, Repr

/-- GhostHouseState from ghost.py. -/
inductive GhostHouseState where
  | IN_HOUSE
  | EXITING
  | ACTIVE
deriving DecidableEq, Repr

/-- State of one ghost: the mutable attributes of class Ghost in
ghost.py that the claims concern, plus the injected game map and the
per-subclass targeting strategy (the calculate_target override). -/
structure Ghost where
  game_map : GameMap
  position : Position
  spawn_position : Position
  direction : Direction
  speed : ℚ
  target : Option Position
  state : GhostState
  house_state : GhostHouseState
  house_exit : Position
  frightened_timer : ℤ
  animation_frame : ℚ
  calculate_target : ℚ → ℚ → ℤ × ℤ → ℚ × ℚ

/-- The per-instance animation speed constant 0.2 set in Ghost init. -/
def animation_speed : ℚ := 1 / 5

/-- The Python float modulo by 2 used by the animation counter:
x percent 2 equals x minus twice the floor of half x. -/
def qmod2 (x : ℚ) : ℚ := x - 2 * (⌊x / 2⌋ : ℤ)

/-- Ghost._reverse_direction from ghost.py: the if-chain swaps UP with
DOWN and LEFT with RIGHT and leaves any other value unchanged. -/
def reverse_direction : Direction → Direction
  | .UP => .DOWN
  | .DOWN => .UP
  | .LEFT => .RIGHT
  | .RIGHT => .LEFT
  | .NONE => .NONE

/-- Ghost.start_frightened from ghost.py. -/
def start_frightened (g : Ghost) : Ghost :=
  if g.state ≠ GhostState.EATEN ∧ g.state ≠ GhostState.FRIGHTENED then
    { g with
      state := GhostState.FRIGHTENED
      frightened_timer := 600
      speed := 1
      direction := reverse_direction g.direction }
  else g

/-- Ghost.get_eaten from ghost.py. -/
def get_eaten (g : Ghost) : Ghost :=
  { g with state := GhostState.EATEN, speed := 4 }

/-- Ghost._respawn_in_house from ghost.py. -/
def respawn_in_house (g : Ghost) : Ghost :=
  { g with
    state := GhostState.SCATTER
    speed := GHOST_SPEED
    position := g.spawn_position
    house_state := GhostHouseState.EXITING
    direction := Direction.UP }

/-- Ghost._is_centered_on_tile from ghost.py, tolerance 2 pixels. -/
def is_centered_on_tile (g : Ghost) : Bool :=
  decide
    (|g.position.x - (grid_to_pixel g.position.to_grid.1 g.position.to_grid.2).x| < 2 ∧
      |g.position.y - (grid_to_pixel g.position.to_grid.1 g.position.to_grid.2).y| < 2)

/-- Ghost._is_opposite_direction from ghost.py: the vector of d equals
the negated vector of the current facing. -/
def is_opposite_direction (g : Ghost) (d : Direction) : Bool :=
  (d.vec.1 == -g.direction.vec.1) && (d.vec.2 == -g.direction.vec.2)

/-- The grid tile adjacent to the ghost in direction d, as computed
inside Ghost._get_distance_for_direction and Ghost._choose_direction. -/
def next_grid (g : Ghost) (d : Direction) : ℤ × ℤ :=
  (g.position.to_grid.1 + d.vec.1, g.position.to_grid.2 + d.vec.2)

/-- Ghost._get_distance_for_direction from ghost.py: the float infinity
returned when the target is unset becomes the top element, a missing
value for a non-walkable neighbor stays a missing value, and the
returned distance is embedded squared. -/
def get_distance_for_direction (g : Ghost) (d : Direction) : Option (WithTop ℚ) :=
  match g.target with
  | none => some ⊤
  | some t =>
    if g.game_map.is_walkable (next_grid g d).1 (next_grid g d).2 then
      some ((Position.distance_to_sq
        (grid_to_pixel (next_grid g d).1 (next_grid g d).2) t : ℚ) : WithTop ℚ)
    else none

/-- The canonical enumeration order of Ghost._choose_direction. -/
def enum_directions : List Direction :=
  [Direction.UP, Direction.DOWN, Direction.LEFT, Direction.RIGHT]

/-- One iteration of the standard-mode loop of Ghost._choose_direction:
skip the reverse of the current facing, skip a direction with no
distance, otherwise keep it when it strictly improves the running
best. -/
def choose_step (g : Ghost) (acc : Direction × WithTop ℚ) (d : Direction) :
    Direction × WithTop ℚ :=
  if is_opposite_direction g d then acc
  else
    match get_distance_for_direction g d with
    | none => acc
    | some v => if v < acc.2 then (d, v) else acc

/-- The list built by the frightened branch of Ghost._choose_direction:
the cardinal directions that are not the reverse of the current facing
and whose adjacent tile is walkable, in enumeration order. -/
def valid_directions (g : Ghost) : List Direction :=
  enum_directions.filter fun d =>
    !(is_opposite_direction g d) &&
      g.game_map.is_walkable (next_grid g d).1 (next_grid g d).2

/-- Ghost._choose_direction from ghost.py.  The call to random.choice
in the frightened branch is supplied as the explicit argument pick. -/
def choose_direction (g : Ghost) (pick : List Direction → Direction) : Ghost :=
  if is_centered_on_tile g = false then g
  else if g.state = GhostState.FRIGHTENED then
    if (valid_directions g).isEmpty then g
    else { g with direction := pick (valid_directions g) }
  else
    match g.target with
    | none => g
    | some _ =>
      { g with
        direction :=
          (enum_directions.foldl (choose_step g) (g.direction, (⊤ : WithTop ℚ))).1 }

/-- The tentative destination computed at the top of Ghost._move:
the position advanced by the direction vector times the speed. -/
def new_position (g : Ghost) : Position :=
  ⟨g.position.x + (g.direction.vec.1 : ℚ) * g.speed,
    g.position.y + (g.direction.vec.2 : ℚ) * g.speed⟩

/-- Ghost._move from ghost.py. -/
def move (g : Ghost) : Ghost :=
  if (new_position g).to_grid.1 < 0 then
    { g with position := ⟨SCREEN_WIDTH - TILE_SIZE, g.position.y⟩ }
  else if g.game_map.width ≤ (new_position g).to_grid.1 then
    { g with position := ⟨0, g.position.y⟩ }
  else if g.game_map.is_walkable (new_position g).to_grid.1 (new_position g).to_grid.2 then
    { g with position := new_position g }
  else
    { g with position := grid_to_pixel g.position.to_grid.1 g.position.to_grid.2 }

/-- Ghost._exit_house from ghost.py, tolerance 2 pixels. -/
def exit_house (g : Ghost) : Ghost :=
  if 2 < |g.position.x - g.house_exit.x| then
    if g.position.x < g.house_exit.x then
      { g with position := ⟨g.position.x + g.speed, g.position.y⟩ }
    else
      { g with position := ⟨g.position.x - g.speed, g.position.y⟩ }
  else if 2 < |g.position.y - g.house_exit.y| then
    { g with position := ⟨g.position.x, g.position.y - g.speed⟩ }
  else
    { g with house_state := GhostHouseState.ACTIVE, direction := Direction.LEFT }

/-- Step 1 of Ghost.update in ghost.py: advance the animation counter
modulo 2. -/
def tick_animation (g : Ghost) : Ghost :=
  { g with animation_frame := qmod2 (g.animation_frame + animation_speed) }

/-- Step 2 of Ghost.update in ghost.py: while frightened, decrement the
countdown, and at or below zero revert to SCATTER and restore the base
speed. -/
def tick_frightened (g : Ghost) : Ghost :=
  if g.state = GhostState.FRIGHTENED then
    if g.frightened_timer - 1 ≤ 0 then
      { g with
        frightened_timer := g.frightened_timer - 1
        state := GhostState.SCATTER
        speed := GHOST_SPEED }
    else { g with frightened_timer := g.frightened_timer - 1 }
  else g

/-- The effective target of steps 5 of Ghost.update in ghost.py: the
house exit while eaten, a dummy point while frightened, else the value
of the targeting strategy. -/
def effective_target (g : Ghost) (px py : ℚ) (pd : ℤ × ℤ) : Position :=
  if g.state = GhostState.EATEN then g.house_exit
  else if g.state = GhostState.FRIGHTENED then ⟨0, 0⟩
  else ⟨(g.calculate_target px py pd).1, (g.calculate_target px py pd).2⟩

/-- Ghost.update from ghost.py: animation tick, frightened countdown,
eaten-arrival check, house state machine, targeting, direction choice
and movement, in the source order.  The comparison of distance_to with
TILE_SIZE is embedded as its square against TILE_SIZE squared. -/
def update (g : Ghost) (pick : List Direction → Direction)
    (px py : ℚ) (pd : ℤ × ℤ) : Ghost :=
  if (tick_frightened (tick_animation g)).state = GhostState.EATEN ∧
      Position.distance_to_sq (tick_frightened (tick_animation g)).position
        (tick_frightened (tick_animation g)).house_exit < TILE_SIZE ^ 2 then
    respawn_in_house (tick_frightened (tick_animation g))
  else if (tick_frightened (tick_animation g)).house_state = GhostHouseState.IN_HOUSE then
    tick_frightened (tick_animation g)
  else if (tick_frightened (tick_animation g)).house_state = GhostHouseState.EXITING then
    exit_house (tick_frightened (tick_animation g))
  else
    move (choose_direction
      { tick_frightened (tick_animation g) with
        target :=
          some (effective_target (tick_frightened (tick_animation g)) px py pd) } pick)

/-- Inky.calculate_target from ghost.py: the pincer strategy, with the
optional partner reference passed as the current partner position. -/
def inky_calculate_target (blinky : Option (ℚ × ℚ))
    (px py : ℚ) (pd : ℤ × ℤ) : ℚ × ℚ :=
  match blinky with
  | none => (px, py)
  | some b =>
    let offset_pixels : ℚ := INKY_OFFSET_TILES * TILE_SIZE
    let ix : ℚ := px + (pd.1 : ℚ) * offset_pixels
    let iy : ℚ := py + (pd.2 : ℚ) * offset_pixels
    let vx : ℚ := ix - b.1
    let vy : ℚ := iy - b.2
    (b.1 + vx * 2, b.2 + vy * 2)

/-! Specification-side definitions, written from the words of the
claims, to be compared with the definitions translated from the
source. -/

/-- Specification-side movement step, transcribed from the words of
the claim about Ghost._move: advance by the direction vector times the
speed; a destination tile with negative grid-x teleports x to the
right screen edge minus one tile width; a destination grid-x at or
beyond the map width teleports x to zero; a non-walkable destination
snaps the position to the exact center of the current tile. -/
def move_spec (g : Ghost) : Ghost :=
  if (new_position g).to_grid.1 < 0 then
    { g with position := ⟨SCREEN_WIDTH - TILE_SIZE, g.position.y⟩ }
  else if g.game_map.width ≤ (new_position g).to_grid.1 then
    { g with position := ⟨0, g.position.y⟩ }
  else if g.game_map.is_walkable (new_position g).to_grid.1 (new_position g).to_grid.2 then
    { g with position := new_position g }
  else
    { g with position := tile_center g.position }

/-- The cardinal directions that are not the reverse of the current
facing and whose adjacent tile is walkable, in the fixed enumeration
order UP, DOWN, LEFT, RIGHT. -/
def qualifying_directions (g : Ghost) : List Direction :=
  enum_directions.filter fun d =>
    !(is_opposite_direction g d) &&
      g.game_map.is_walkable (next_grid g d).1 (next_grid g d).2

/-- Specification-side value minimized by the standard direction
choice: the squared distance from the center of the tile adjacent in
direction d to the target point. -/
def spec_distance (g : Ghost) (t : Position) (d : Direction) : ℚ :=
  sq_dist (grid_to_pixel (next_grid g d).1 (next_grid g d).2) t

/-- Specification-side direction choice, transcribed from the words of
the claim: among the qualifying directions, the first one in
enumeration order whose distance value is at most that of every other
qualifying direction; no direction when none qualifies. -/
def spec_best_direction (g : Ghost) (t : Position) : Option Direction :=
  (qualifying_directions g).find? fun d =>
    (qualifying_directions g).all fun e =>
      decide (spec_distance g t d ≤ spec_distance g t e)

/-! Concrete instances used by the witnesses and counterexamples. -/

/-- A map where every tile is walkable, 30 tiles wide. -/
def open_map : GameMap := ⟨30, fun _ _ => true⟩

/-- A deterministic stand-in for random.choice: the head of the list. -/
def pick_head : List Direction → Direction := fun l => l.headD Direction.UP

/-- A concrete ghost at the center of tile five-five of an open map,
facing right, in SCATTER, with the direct-chaser strategy. -/
def base_ghost : Ghost where
  game_map := open_map
  position := ⟨110, 110⟩
  spawn_position := ⟨500, 500⟩
  direction := Direction.RIGHT
  speed := 2
  target := none
  state := GhostState.SCATTER
  house_state := GhostHouseState.ACTIVE
  house_exit := ⟨100, 100⟩
  frightened_timer := 0
  animation_frame := 0
  calculate_target := fun px py _ => (px, py)

/-- Concrete ghost for the direction-choice witness: centered, facing
right, with a target three tiles to the right. -/
def ghost_w1 : Ghost := { base_ghost with target := some ⟨250, 110⟩ }

/-- Concrete frightened ghost for the no-reverse witness. -/
def ghost_w2 : Ghost :=
  { base_ghost with state := GhostState.FRIGHTENED, frightened_timer := 600, speed := 1 }

/-- Concrete frightened ghost with a nearly expired countdown. -/
def ghost_w5 : Ghost :=
  { base_ghost with state := GhostState.FRIGHTENED, frightened_timer := 1, speed := 1 }

/-- Concrete ghost in SCATTER facing left, for the start-frightened
witness. -/
def ghost_w6 : Ghost := { base_ghost with direction := Direction.LEFT }

/-- Concrete eaten ghost inside the house-exit tile but more than one
tile width of raw pixel distance away from the exact exit point. -/
def ghost_c7 : Ghost :=
  { base_ghost with
    state := GhostState.EATEN
    speed := 4
    position := ⟨115, 115⟩ }

/-- Concrete eaten ghost exactly at the house-exit point. -/
def ghost_w7 : Ghost :=
  { base_ghost with
    state := GhostState.EATEN
    speed := 4
    position := ⟨100, 100⟩ }

/-- Concrete eaten ghost waiting in the house at the house-exit
point. -/
def ghost_c9 : Ghost :=
  { base_ghost with
    state := GhostState.EATEN
    speed := 4
    position := ⟨100, 100⟩
    house_state := GhostHouseState.IN_HOUSE }

/-- Concrete non-eaten ghost waiting in the house. -/
def ghost_w9 : Ghost :=
  { base_ghost with house_state := GhostHouseState.IN_HOUSE }

/-! Shared helper lemmas: which fields each operation preserves, and
how Ghost.update decomposes into its branches. -/

@[simp] theorem tick_animation_game_map (g : Ghost) : (tick_animation g).game_map = g.game_map := rfl

@[simp] theorem tick_animation_position (g : Ghost) : (tick_animation g).position = g.position := rfl

@[simp] theorem tick_animation_spawn (g : Ghost) : (tick_animation g).spawn_position = g.spawn_position := rfl

@[simp] theorem tick_animation_direction (g : Ghost) : (tick_animation g).direction = g.direction := rfl

@[simp] theorem tick_animation_speed (g : Ghost) : (tick_animation g).speed = g.speed := rfl

@[simp] theorem tick_animation_target (g : Ghost) : (tick_animation g).target = g.target := rfl

@[simp] theorem tick_animation_state (g : Ghost) : (tick_animation g).state = g.state := rfl

@[simp] theorem tick_animation_house_state (g : Ghost) : (tick_animation g).house_state = g.house_state := rfl

@[simp] theorem tick_animation_house_exit (g : Ghost) : (tick_animation g).house_exit = g.house_exit := rfl

@[simp] theorem tick_animation_timer (g : Ghost) : (tick_animation g).frightened_timer = g.frightened_timer := rfl

theorem tick_frightened_of_ne (g : Ghost) (h : g.state ≠ GhostState.FRIGHTENED) :
    tick_frightened g = g := by
  unfold tick_frightened
  rw [if_neg h]

theorem tick_frightened_expire (g : Ghost) (h1 : g.state = GhostState.FRIGHTENED)
    (h2 : g.frightened_timer - 1 ≤ 0) :
    tick_frightened g =
      { g with
        frightened_timer := g.frightened_timer - 1
        state := GhostState.SCATTER
        speed := GHOST_SPEED } := by
  unfold tick_frightened
  rw [if_pos h1, if_pos h2]

theorem tick_frightened_running (g : Ghost) (h1 : g.state = GhostState.FRIGHTENED)
    (h2 : ¬ g.frightened_timer - 1 ≤ 0) :
    tick_frightened g = { g with frightened_timer := g.frightened_timer - 1 } := by
  unfold tick_frightened
  rw [if_pos h1, if_neg h2]

@[simp] theorem tick_frightened_position (g : Ghost) : (tick_frightened g).position = g.position := by
  unfold tick_frightened; split_ifs <;> rfl

@[simp] theorem tick_frightened_direction (g : Ghost) : (tick_frightened g).direction = g.direction := by
  unfold tick_frightened; split_ifs <;> rfl

@[simp] theorem tick_frightened_target (g : Ghost) : (tick_frightened g).target = g.target := by
  unfold tick_frightened; split_ifs <;> rfl

@[simp] theorem tick_frightened_house_state (g : Ghost) : (tick_frightened g).house_state = g.house_state := by
  unfold tick_frightened; split_ifs <;> rfl

@[simp] theorem tick_frightened_house_exit (g : Ghost) : (tick_frightened g).house_exit = g.house_exit := by
  unfold tick_frightened; split_ifs <;> rfl

@[simp] theorem tick_frightened_spawn (g : Ghost) : (tick_frightened g).spawn_position = g.spawn_position := by
  unfold tick_frightened; split_ifs <;> rfl

theorem tick_frightened_state_eaten_iff (g : Ghost) :
    (tick_frightened g).state = GhostState.EATEN ↔ g.state = GhostState.EATEN := by
  unfold tick_frightened
  split_ifs with h1 h2 <;> simp_all

theorem choose_direction_cases (g : Ghost) (pick : List Direction → Direction) :
    choose_direction g pick = g ∨
      ∃ d, choose_direction g pick = { g with direction := d } := by
  unfold choose_direction
  split_ifs with h1 h2 h3
  · exact Or.inl rfl
  · exact Or.inl rfl
  · exact Or.inr ⟨_, rfl⟩
  · rcases hT : g.target with _ | t
    · exact Or.inl rfl
    · exact Or.inr ⟨_, rfl⟩

theorem move_shape (g : Ghost) : ∃ p, move g = { g with position := p } := by
  unfold move
  split_ifs <;> exact ⟨_, rfl⟩

theorem exit_house_shape (g : Ghost) :
    (∃ p, exit_house g = { g with position := p }) ∨
      exit_house g =
        { g with house_state := GhostHouseState.ACTIVE, direction := Direction.LEFT } := by
  unfold exit_house
  split_ifs <;> first | exact Or.inl ⟨_, rfl⟩ | exact Or.inr rfl

@[simp] theorem exit_house_state (g : Ghost) : (exit_house g).state = g.state := by
  rcases exit_house_shape g with ⟨p, h⟩ | h <;> rw [h]

@[simp] theorem exit_house_speed (g : Ghost) : (exit_house g).speed = g.speed := by
  rcases exit_house_shape g with ⟨p, h⟩ | h <;> rw [h]

@[simp] theorem exit_house_timer (g : Ghost) :
    (exit_house g).frightened_timer = g.frightened_timer := by
  rcases exit_house_shape g with ⟨p, h⟩ | h <;> rw [h]

@[simp] theorem choose_direction_state (g : Ghost) (pick : List Direction → Direction) :
    (choose_direction g pick).state = g.state := by
  rcases choose_direction_cases g pick with h | ⟨d, h⟩ <;> rw [h]

@[simp] theorem choose_direction_speed (g : Ghost) (pick : List Direction → Direction) :
    (choose_direction g pick).speed = g.speed := by
  rcases choose_direction_cases g pick with h | ⟨d, h⟩ <;> rw [h]

@[simp] theorem choose_direction_timer (g : Ghost) (pick : List Direction → Direction) :
    (choose_direction g pick).frightened_timer = g.frightened_timer := by
  rcases choose_direction_cases g pick with h | ⟨d, h⟩ <;> rw [h]

@[simp] theorem choose_direction_house_state (g : Ghost) (pick : List Direction → Direction) :
    (choose_direction g pick).house_state = g.house_state := by
  rcases choose_direction_cases g pick with h | ⟨d, h⟩ <;> rw [h]

@[simp] theorem choose_direction_position (g : Ghost) (pick : List Direction → Direction) :
    (choose_direction g pick).position = g.position := by
  rcases choose_direction_cases g pick with h | ⟨d, h⟩ <;> rw [h]

@[simp] theorem move_state (g : Ghost) : (move g).state = g.state := by
  rcases move_shape g with ⟨p, h⟩; rw [h]

@[simp] theorem move_speed (g : Ghost) : (move g).speed = g.speed := by
  rcases move_shape g with ⟨p, h⟩; rw [h]

@[simp] theorem move_timer (g : Ghost) : (move g).frightened_timer = g.frightened_timer := by
  rcases move_shape g with ⟨p, h⟩; rw [h]

@[simp] theorem move_house_state (g : Ghost) : (move g).house_state = g.house_state := by
  rcases move_shape g with ⟨p, h⟩; rw [h]

/-- Branch lemma: an eaten ghost within the threshold of the house exit
respawns, and nothing else of that frame runs. -/
theorem update_eq_respawn (g : Ghost) (pick : List Direction → Direction)
    (px py : ℚ) (pd : ℤ × ℤ)
    (h1 : g.state = GhostState.EATEN)
    (h2 : Position.distance_to_sq g.position g.house_exit < TILE_SIZE ^ 2) :
    update g pick px py pd = respawn_in_house (tick_animation g) := by
  have hne : g.state ≠ GhostState.FRIGHTENED := by rw [h1]; intro h; exact absurd h (by decide)
  have hg2 : tick_frightened (tick_animation g) = tick_animation g :=
    tick_frightened_of_ne _ (by simpa using hne)
  unfold update
  rw [hg2]
  rw [if_pos]
  constructor
  · simpa using h1
  · simpa using h2

/-- Branch lemma: with the respawn condition false and the ghost in the
house, update returns after the frightened tick. -/
theorem update_eq_in_house (g : Ghost) (pick : List Direction → Direction)
    (px py : ℚ) (pd : ℤ × ℤ)
    (h1 : g.house_state = GhostHouseState.IN_HOUSE)
    (h2 : ¬ (g.state = GhostState.EATEN ∧
      Position.distance_to_sq g.position g.house_exit < TILE_SIZE ^ 2)) :
    update g pick px py pd = tick_frightened (tick_animation g) := by
  unfold update
  rw [if_neg, if_pos (by simpa using h1)]
  intro hc
  apply h2
  refine ⟨?_, by simpa using hc.2⟩
  have := (tick_frightened_state_eaten_iff (tick_animation g)).mp hc.1
  simpa using this

/-- Branch lemma: a non-frightened active ghost with the respawn
condition false runs targeting, direction choice and movement. -/
theorem update_eq_active (g : Ghost) (pick : List Direction → Direction)
    (px py : ℚ) (pd : ℤ × ℤ)
    (hf : g.state ≠ GhostState.FRIGHTENED)
    (hr : ¬ (g.state = GhostState.EATEN ∧
      Position.distance_to_sq g.position g.house_exit < TILE_SIZE ^ 2))
    (hh : g.house_state = GhostHouseState.ACTIVE) :
    update g pick px py pd =
      move (choose_direction
        { tick_animation g with
          target := some (effective_target (tick_animation g) px py pd) } pick) := by
  have hg2 : tick_frightened (tick_animation g) = tick_animation g :=
    tick_frightened_of_ne _ (by simpa using hf)
  unfold update
  rw [hg2]
  rw [if_neg, if_neg, if_neg]
  · simp [hh]
  · simp [hh]
  · intro hc
    exact hr ⟨by simpa using hc.1, by simpa using hc.2⟩

/-- Core state fields survive a full update frame whenever the respawn
branch is not taken. -/
theorem update_core_of_no_respawn (g : Ghost) (pick : List Direction → Direction)
    (px py : ℚ) (pd : ℤ × ℤ)
    (h : ¬ ((tick_frightened (tick_animation g)).state = GhostState.EATEN ∧
      Position.distance_to_sq g.position g.house_exit < TILE_SIZE ^ 2)) :
    (update g pick px py pd).state = (tick_frightened (tick_animation g)).state ∧
    (update g pick px py pd).speed = (tick_frightened (tick_animation g)).speed ∧
    (update g pick px py pd).frightened_timer =
      (tick_frightened (tick_animation g)).frightened_timer := by
  unfold update
  rw [if_neg (by simpa using h)]
  split_ifs with h1 h2 <;> simp

theorem tick_frightened_timer_of_frightened (g : Ghost) (h : g.state = GhostState.FRIGHTENED) :
    (tick_frightened g).frightened_timer = g.frightened_timer - 1 := by
  unfold tick_frightened
  rw [if_pos h]
  split_ifs <;> rfl

theorem tick_frightened_of_expire (g : Ghost) (h : g.state = GhostState.FRIGHTENED)
    (h2 : g.frightened_timer - 1 ≤ 0) :
    (tick_frightened g).state = GhostState.SCATTER ∧ (tick_frightened g).speed = GHOST_SPEED := by
  unfold tick_frightened
  rw [if_pos h, if_pos h2]
  exact ⟨rfl, rfl⟩

theorem tick_frightened_of_running (g : Ghost) (h : g.state = GhostState.FRIGHTENED)
    (h2 : ¬ g.frightened_timer - 1 ≤ 0) :
    (tick_frightened g).state = GhostState.FRIGHTENED ∧ (tick_frightened g).speed = g.speed := by
  unfold tick_frightened
  rw [if_pos h, if_neg h2]
  exact ⟨h, rfl⟩

/-- The half-tile offsets that Position.get_center adds to both
arguments of Position.distance_to cancel: the function measures the
raw pixel distance, not a tile-quantized one. -/
theorem distance_to_sq_eq_sq_dist (p q : Position) :
    Position.distance_to_sq p q = sq_dist p q := by
  unfold Position.distance_to_sq sq_dist Position.get_center
  ring

/-- The head of a nonempty list is a member: the pick used by the
witnesses satisfies the random.choice contract. -/
theorem pick_head_mem : ∀ l : List Direction, l ≠ [] → pick_head l ∈ l := by
  intro l hl
  cases l with
  | nil => exact absurd rfl hl
  | cons a l => simp [pick_head]

/-- The direction selected by the standard-mode loop is either the
initial one or one that is not the reverse of the current facing. -/
theorem foldl_choose_step_dir (g : Ghost) :
    ∀ (l : List Direction) (acc : Direction × WithTop ℚ),
      (l.foldl (choose_step g) acc).1 = acc.1 ∨
        is_opposite_direction g ((l.foldl (choose_step g) acc).1) = false := by
  intro l
  induction l with
  | nil => intro acc; exact Or.inl rfl
  | cons d l ih =>
    intro acc
    rw [List.foldl_cons]
    rcases ih (choose_step g acc d) with h | h
    · rw [h]
      unfold choose_step
      by_cases hop : is_opposite_direction g d
      · rw [if_pos hop]; exact Or.inl rfl
      · rw [if_neg hop]
        rcases hd : get_distance_for_direction g d with _ | v
        · exact Or.inl rfl
        · dsimp only
          by_cases hv : v < acc.2
          · rw [if_pos hv]
            exact Or.inr (by simpa using hop)
          · rw [if_neg hv]; exact Or.inl rfl
    · exact Or.inr h

/-- A loop iteration is the identity on a skipped direction. -/
theorem choose_step_id (g : Ghost) (acc : Direction × WithTop ℚ) (d : Direction)
    (h : is_opposite_direction g d = true ∨ get_distance_for_direction g d = none) :
    choose_step g acc d = acc := by
  unfold choose_step
  rcases h with h | h
  · rw [if_pos h]
  · by_cases hop : is_opposite_direction g d
    · rw [if_pos hop]
    · rw [if_neg hop, h]

/-- The standard-mode loop is the identity when every direction is
skipped. -/
theorem foldl_choose_step_id (g : Ghost) :
    ∀ (l : List Direction) (acc : Direction × WithTop ℚ),
      (∀ d ∈ l, is_opposite_direction g d = true ∨
        get_distance_for_direction g d = none) →
      l.foldl (choose_step g) acc = acc := by
  intro l
  induction l with
  | nil => intro acc _; rfl
  | cons d l ih =>
    intro acc hall
    rw [List.foldl_cons, choose_step_id g acc d (hall d (by simp))]
    exact ih acc fun e he => hall e (by simp [he])

/-- find? is determined by the values of its predicate on the list. -/
theorem find_congr_on {α : Type} (l : List α) (p q : α → Bool)
    (h : ∀ a ∈ l, p a = q a) : l.find? p = l.find? q := by
  induction l with
  | nil => rfl
  | cons a l ih =>
    have ha := h a (by simp)
    by_cases hpa : p a = true
    · rw [List.find?_cons_of_pos l hpa, List.find?_cons_of_pos l (ha ▸ hpa)]
    · rw [List.find?_cons_of_neg l hpa, List.find?_cons_of_neg l (ha ▸ hpa)]
      exact ih fun x hx => h x (by simp [hx])

/-- Every nonempty list has an element of minimal value. -/
theorem exists_min_list {α : Type} (v : α → ℚ) :
    ∀ l : List α, l ≠ [] → ∃ m ∈ l, ∀ e ∈ l, v m ≤ v e := by
  intro l
  induction l with
  | nil => intro h; exact absurd rfl h
  | cons a l ih =>
    intro _
    by_cases hl : l = []
    · subst hl
      exact ⟨a, by simp, by simp⟩
    · obtain ⟨m, hm, hmin⟩ := ih hl
      rcases le_total (v a) (v m) with h | h
      · refine ⟨a, by simp, ?_⟩
        intro e he
        rcases List.mem_cons.mp he with rfl | he
        · exact le_rfl
        · exact le_trans h (hmin e he)
      · refine ⟨m, by simp [hm], ?_⟩
        intro e he
        rcases List.mem_cons.mp he with rfl | he
        · exact h
        · exact hmin e he

/-- The greedy strict-improvement fold of Ghost._choose_direction over
any enumeration list computes the first qualifying element of minimal
value that beats the initial best, and keeps the initial accumulator
when no element does. -/
theorem foldl_argmin (q : Direction → Bool) (v : Direction → ℚ)
    (step : Direction × WithTop ℚ → Direction → Direction × WithTop ℚ)
    (hstep : ∀ acc d, step acc d =
      if q d then
        (if (v d : WithTop ℚ) < acc.2 then (d, (v d : WithTop ℚ)) else acc)
      else acc) :
    ∀ (l : List Direction) (bd : Direction) (bv : WithTop ℚ),
      l.foldl step (bd, bv) =
        match (l.filter q).find? (fun x =>
            decide ((v x : WithTop ℚ) < bv) &&
              (l.filter q).all fun e => decide (v x ≤ v e)) with
        | some x => (x, (v x : WithTop ℚ))
        | none => (bd, bv) := by
  intro l
  induction l with
  | nil => intro bd bv; rfl
  | cons d l ih =>
    intro bd bv
    rw [List.foldl_cons, hstep]
    by_cases hq : q d = true
    · rw [if_pos hq, List.filter_cons_of_pos hq]
      by_cases hv : (v d : WithTop ℚ) < bv
      · rw [if_pos hv]
        by_cases hmin : ∀ e ∈ l.filter q, v d ≤ v e
        · have hPd : (fun x => decide ((v x : WithTop ℚ) < bv) &&
              (d :: l.filter q).all fun e => decide (v x ≤ v e)) d = true := by
            simp only [Bool.and_eq_true, decide_eq_true_eq, List.all_eq_true,
              List.mem_cons]
            refine ⟨hv, ?_⟩
            rintro e (rfl | he)
            · exact le_rfl
            · exact hmin e he
          rw [@List.find?_cons_of_pos _ (fun x => decide ((v x : WithTop ℚ) < bv) &&
            (d :: l.filter q).all fun e => decide (v x ≤ v e)) d (l.filter q) hPd,
            ih d (v d : ℚ)]
          have hnone : (l.filter q).find? (fun x =>
              decide ((v x : WithTop ℚ) < ((v d : ℚ) : WithTop ℚ)) &&
                (l.filter q).all fun e => decide (v x ≤ v e)) = none := by
            rw [List.find?_eq_none]
            intro x hx
            simp only [Bool.and_eq_true, decide_eq_true_eq, List.all_eq_true, not_and]
            intro hlt
            exact absurd (WithTop.coe_lt_coe.mp hlt) (not_lt.mpr (hmin x hx))
          rw [hnone]
        · push_neg at hmin
          obtain ⟨e0, he0, hlt0⟩ := hmin
          have hPd : ¬((fun x => decide ((v x : WithTop ℚ) < bv) &&
              (d :: l.filter q).all fun e => decide (v x ≤ v e)) d = true) := by
            simp only [Bool.and_eq_true, decide_eq_true_eq, List.all_eq_true,
              List.mem_cons]
            rintro ⟨-, hall⟩
            exact absurd (hall e0 (Or.inr he0)) (not_le.mpr hlt0)
          rw [@List.find?_cons_of_neg _ (fun x => decide ((v x : WithTop ℚ) < bv) &&
            (d :: l.filter q).all fun e => decide (v x ≤ v e)) d (l.filter q) hPd,
            ih d (v d : ℚ)]
          have hpeq : ∀ x ∈ l.filter q,
              (fun x => decide ((v x : WithTop ℚ) < ((v d : ℚ) : WithTop ℚ)) &&
                (l.filter q).all fun e => decide (v x ≤ v e)) x =
              (fun x => decide ((v x : WithTop ℚ) < bv) &&
                (d :: l.filter q).all fun e => decide (v x ≤ v e)) x := by
            intro x hx
            rw [Bool.eq_iff_iff]
            simp only [Bool.and_eq_true, decide_eq_true_eq, List.all_eq_true,
              List.mem_cons]
            constructor
            · rintro ⟨h1, h2⟩
              refine ⟨lt_trans h1 hv, ?_⟩
              rintro e (rfl | he)
              · exact le_of_lt (WithTop.coe_lt_coe.mp h1)
              · exact h2 e he
            · rintro ⟨h1, h2⟩
              have hxle := h2 e0 (Or.inr he0)
              exact ⟨WithTop.coe_lt_coe.mpr (lt_of_le_of_lt hxle hlt0),
                fun e he => h2 e (Or.inr he)⟩
          rw [find_congr_on _ _ _ hpeq]
          have hfne : l.filter q ≠ [] := by
            intro hnil
            rw [hnil] at he0
            exact (List.not_mem_nil e0) he0
          obtain ⟨m, hm, hmm⟩ := exists_min_list v (l.filter q) hfne
          have hsome : ((l.filter q).find? (fun x =>
              decide ((v x : WithTop ℚ) < bv) &&
                (d :: l.filter q).all fun e => decide (v x ≤ v e))).isSome := by
            rw [List.find?_isSome]
            refine ⟨m, hm, ?_⟩
            simp only [Bool.and_eq_true, decide_eq_true_eq, List.all_eq_true,
              List.mem_cons]
            have hmd : v m ≤ v d := le_of_lt (lt_of_le_of_lt (hmm e0 he0) hlt0)
            refine ⟨lt_trans (WithTop.coe_lt_coe.mpr
              (lt_of_le_of_lt (hmm e0 he0) hlt0)) hv, ?_⟩
            rintro e (rfl | he)
            · exact hmd
            · exact hmm e he
          obtain ⟨r, hr⟩ := Option.isSome_iff_exists.mp hsome
          rw [hr]
      · rw [if_neg hv, ih bd bv]
        have hPd : ¬((fun x => decide ((v x : WithTop ℚ) < bv) &&
            (d :: l.filter q).all fun e => decide (v x ≤ v e)) d = true) := by
          simp only [Bool.and_eq_true, decide_eq_true_eq]
          rintro ⟨h1, -⟩
          exact hv h1
        rw [@List.find?_cons_of_neg _ (fun x => decide ((v x : WithTop ℚ) < bv) &&
          (d :: l.filter q).all fun e => decide (v x ≤ v e)) d (l.filter q) hPd]
        have hpeq : ∀ x ∈ l.filter q,
            (fun x => decide ((v x : WithTop ℚ) < bv) &&
              (l.filter q).all fun e => decide (v x ≤ v e)) x =
            (fun x => decide ((v x : WithTop ℚ) < bv) &&
              (d :: l.filter q).all fun e => decide (v x ≤ v e)) x := by
          intro x hx
          rw [Bool.eq_iff_iff]
          simp only [Bool.and_eq_true, decide_eq_true_eq, List.all_eq_true,
            List.mem_cons]
          constructor
          · rintro ⟨h1, h2⟩
            refine ⟨h1, ?_⟩
            rintro e (rfl | he)
            · exact le_of_lt (WithTop.coe_lt_coe.mp (lt_of_lt_of_le h1 (not_lt.mp hv)))
            · exact h2 e he
          · rintro ⟨h1, h2⟩
            exact ⟨h1, fun e he => h2 e (Or.inr he)⟩
        rw [find_congr_on _ _ _ hpeq]
    · rw [if_neg hq, List.filter_cons_of_neg (by simpa using hq)]
      exact ih bd bv

/-! Claim theorems. -/

/-- Claim C1: for a ghost in SCATTER, CHASE or EATEN that sits within
the centering tolerance of its tile center and has a target,
_choose_direction selects, among the cardinal directions that are not
the reverse of the current facing and whose adjacent tile is walkable,
the one minimizing the distance from that adjacent tile center to the
target, ties resolved to the first qualifying direction in the fixed
order UP, DOWN, LEFT, RIGHT, keeping the current direction when none
qualifies; and with a null target the current direction is kept. -/
theorem c1_choose_direction_minimizes (g : Ghost) (pick : List Direction → Direction)
    (t : Position)
    (hc : is_centered_on_tile g = true)
    (hs : g.state = GhostState.SCATTER ∨ g.state = GhostState.CHASE ∨
      g.state = GhostState.EATEN) :
    (g.target = some t →
      (choose_direction g pick).direction =
        (spec_best_direction g t).getD g.direction) ∧
    (g.target = none → (choose_direction g pick).direction = g.direction) := by
  have hnf : ¬ g.state = GhostState.FRIGHTENED := by
    rcases hs with h | h | h <;> simp [h]
  constructor
  · intro hT
    unfold choose_direction
    rw [if_neg (by simp [hc]), if_neg hnf, hT]
    show (enum_directions.foldl (choose_step g) (g.direction, (⊤ : WithTop ℚ))).1 =
      (spec_best_direction g t).getD g.direction
    have hstep : ∀ (acc : Direction × WithTop ℚ) (d : Direction),
        choose_step g acc d =
          if (fun d => !(is_opposite_direction g d) &&
              g.game_map.is_walkable (next_grid g d).1 (next_grid g d).2) d then
            (if ((spec_distance g t d : ℚ) : WithTop ℚ) < acc.2 then
              (d, ((spec_distance g t d : ℚ) : WithTop ℚ))
            else acc)
          else acc := by
      intro acc d
      unfold choose_step get_distance_for_direction
      rw [hT]
      by_cases hop : is_opposite_direction g d = true
      · rw [if_pos hop]
        simp [hop]
      · rw [if_neg hop]
        by_cases hw : g.game_map.is_walkable (next_grid g d).1 (next_grid g d).2 = true
        · simp [hop, hw, spec_distance, distance_to_sq_eq_sq_dist]
        · simp [hop, hw]
    rw [foldl_argmin _ _ (choose_step g) hstep enum_directions g.direction ⊤]
    have hql : enum_directions.filter (fun d => !(is_opposite_direction g d) &&
        g.game_map.is_walkable (next_grid g d).1 (next_grid g d).2) =
        qualifying_directions g := rfl
    rw [hql]
    have hpeq : ∀ x ∈ qualifying_directions g,
        (fun x => decide (((spec_distance g t x : ℚ) : WithTop ℚ) < ⊤) &&
          (qualifying_directions g).all fun e =>
            decide (spec_distance g t x ≤ spec_distance g t e)) x =
        (fun x => (qualifying_directions g).all fun e =>
          decide (spec_distance g t x ≤ spec_distance g t e)) x := by
      intro x hx
      simp [WithTop.coe_lt_top]
    rw [find_congr_on _ _ _ hpeq]
    have hsbd : spec_best_direction g t =
        (qualifying_directions g).find? fun x =>
          (qualifying_directions g).all fun e =>
            decide (spec_distance g t x ≤ spec_distance g t e) := rfl
    rcases hf : (qualifying_directions g).find? (fun x =>
        (qualifying_directions g).all fun e =>
          decide (spec_distance g t x ≤ spec_distance g t e)) with _ | r
    · rw [hsbd, hf]
      rfl
    · rw [hsbd, hf]
      rfl
  · intro hT
    unfold choose_direction
    rw [if_neg (by simp [hc]), if_neg hnf, hT]

/-- Claim C1 witness: a concrete centered ghost facing right with a
target three tiles to the right follows the greedy choice. -/
theorem c1_choose_direction_witness :
    (choose_direction ghost_w1 pick_head).direction =
      (spec_best_direction ghost_w1 ⟨250, 110⟩).getD ghost_w1.direction :=
  (c1_choose_direction_minimizes ghost_w1 pick_head ⟨250, 110⟩
    (by norm_num [is_centered_on_tile, grid_to_pixel, Position.to_grid, TILE_SIZE,
      ghost_w1, base_ghost])
    (Or.inl rfl)).1 rfl

/-- Claim C2: in every lifecycle state, _choose_direction either keeps
the current direction or selects one that is not the exact opposite of
the current facing; and when every cardinal direction is the reverse of
the facing or leads to a non-walkable tile — a frightened dead end or a
standard-mode ghost with no walkable neighbor — the current direction
is retained rather than reversed. -/
theorem c2_never_reverses (g : Ghost) (pick : List Direction → Direction)
    (hpick : ∀ l : List Direction, l ≠ [] → pick l ∈ l) :
    ((choose_direction g pick).direction = g.direction ∨
      is_opposite_direction g ((choose_direction g pick).direction) = false) ∧
    ((∀ d ∈ enum_directions, is_opposite_direction g d = true ∨
        g.game_map.is_walkable (next_grid g d).1 (next_grid g d).2 = false) →
      (choose_direction g pick).direction = g.direction) := by
  constructor
  · unfold choose_direction
    split_ifs with h1 h2 h3
    · exact Or.inl rfl
    · exact Or.inl rfl
    · right
      have hne : valid_directions g ≠ [] := by simpa using h3
      have hmem := hpick _ hne
      show is_opposite_direction g (pick (valid_directions g)) = false
      unfold valid_directions at hmem
      have hmf := List.mem_filter.mp hmem
      have hpred := hmf.2
      simp only [Bool.and_eq_true, Bool.not_eq_true'] at hpred
      exact hpred.1
    · rcases hT : g.target with _ | t
      · exact Or.inl rfl
      · rcases foldl_choose_step_dir g enum_directions (g.direction, (⊤ : WithTop ℚ))
          with h | h
        · exact Or.inl h
        · exact Or.inr h
  · intro hall
    unfold choose_direction
    split_ifs with h1 h2 h3
    · rfl
    · rfl
    · exfalso
      apply h3
      have hnil : valid_directions g = [] := by
        apply List.filter_eq_nil_iff.mpr
        intro d hd
        rcases hall d hd with hop | hw
        · simp [hop]
        · simp [hw]
      simp [hnil]
    · rcases hT : g.target with _ | t
      · rfl
      · have hfold : enum_directions.foldl (choose_step g)
            (g.direction, (⊤ : WithTop ℚ)) = (g.direction, ⊤) := by
          apply foldl_choose_step_id
          intro d hd
          rcases hall d hd with hop | hw
          · exact Or.inl hop
          · right
            unfold get_distance_for_direction
            rw [hT]
            simp [hw]
        show (enum_directions.foldl (choose_step g) (g.direction, (⊤ : WithTop ℚ))).1 =
          g.direction
        rw [hfold]

/-- Claim C2 witness: the no-reverse property applied to a concrete
ghost with the deterministic head pick. -/
theorem c2_never_reverses_witness :
    ((choose_direction base_ghost pick_head).direction = base_ghost.direction ∨
      is_opposite_direction base_ghost
        ((choose_direction base_ghost pick_head).direction) = false) ∧
    ((∀ d ∈ enum_directions, is_opposite_direction base_ghost d = true ∨
        base_ghost.game_map.is_walkable (next_grid base_ghost d).1
          (next_grid base_ghost d).2 = false) →
      (choose_direction base_ghost pick_head).direction = base_ghost.direction) :=
  c2_never_reverses base_ghost pick_head pick_head_mem

/-- Claim C3, evaluated at the failing input: the positions zero-zero
and zero-ten lie in the same tile, so their tile centers coincide and
the tile-center distance the claim describes is zero, yet distance_to
returns the raw pixel distance 10 (squared: 100), exactly the raw
distance between the two points. -/
theorem c3_distance_to_is_raw :
    tile_center (⟨0, 0⟩ : Position) = tile_center ⟨0, 10⟩ ∧
    Position.distance_to_sq ⟨0, 0⟩ ⟨0, 10⟩ = 100 ∧
    sq_dist (⟨0, 0⟩ : Position) ⟨0, 10⟩ = 100 := by
  refine ⟨?_, ?_, ?_⟩ <;>
    norm_num [tile_center, grid_to_pixel, Position.to_grid, Position.distance_to_sq,
      Position.get_center, sq_dist, TILE_SIZE]

/-- Claim C4: Ghost._move advances the position by the direction unit
vector times the speed, except that a destination tile with negative
grid-x teleports x to the right screen edge minus one tile width with y
unchanged, a destination grid-x at or beyond the map width teleports x
to zero with y unchanged, and a non-walkable destination snaps the
position to the exact center of the current tile. -/
theorem c4_move_matches_spec (g : Ghost) : move g = move_spec g := rfl

/-- Claim C5: while frightened, each update decrements the countdown by
exactly one, and the transition to SCATTER with base speed restored
happens exactly in the call in which the countdown reaches a value at
or below zero, never earlier. -/
theorem c5_frightened_countdown (g : Ghost) (pick : List Direction → Direction)
    (px py : ℚ) (pd : ℤ × ℤ) (h : g.state = GhostState.FRIGHTENED) :
    (update g pick px py pd).frightened_timer = g.frightened_timer - 1 ∧
    (g.frightened_timer - 1 ≤ 0 →
      (update g pick px py pd).state = GhostState.SCATTER ∧
      (update g pick px py pd).speed = GHOST_SPEED) ∧
    (0 < g.frightened_timer - 1 →
      (update g pick px py pd).state = GhostState.FRIGHTENED ∧
      (update g pick px py pd).speed = g.speed) := by
  have hga : (tick_animation g).state = GhostState.FRIGHTENED := by simpa using h
  have htimer2 : (tick_frightened (tick_animation g)).frightened_timer =
      g.frightened_timer - 1 := by
    rw [tick_frightened_timer_of_frightened _ hga, tick_animation_timer]
  by_cases ht : g.frightened_timer - 1 ≤ 0
  · have hss := tick_frightened_of_expire (tick_animation g) hga
      (by rw [tick_animation_timer]; exact ht)
    have hno : ¬ ((tick_frightened (tick_animation g)).state = GhostState.EATEN ∧
        Position.distance_to_sq g.position g.house_exit < TILE_SIZE ^ 2) := by
      rw [hss.1]; rintro ⟨hc, -⟩; exact absurd hc (by decide)
    have hcore := update_core_of_no_respawn g pick px py pd hno
    refine ⟨by rw [hcore.2.2, htimer2], fun _ => ⟨?_, ?_⟩, fun hlt => absurd ht (by omega)⟩
    · rw [hcore.1, hss.1]
    · rw [hcore.2.1, hss.2]
  · have hss := tick_frightened_of_running (tick_animation g) hga
      (by rw [tick_animation_timer]; exact ht)
    have hno : ¬ ((tick_frightened (tick_animation g)).state = GhostState.EATEN ∧
        Position.distance_to_sq g.position g.house_exit < TILE_SIZE ^ 2) := by
      rw [hss.1]; rintro ⟨hc, -⟩; exact absurd hc (by decide)
    have hcore := update_core_of_no_respawn g pick px py pd hno
    refine ⟨by rw [hcore.2.2, htimer2], fun hle => absurd hle ht, fun _ => ⟨?_, ?_⟩⟩
    · rw [hcore.1, hss.1]
    · rw [hcore.2.1, hss.2, tick_animation_speed]

/-- Claim C5 witness: a concrete frightened ghost with countdown one
expires in this very update call. -/
theorem c5_frightened_witness :
    (update ghost_w5 pick_head 0 0 (0, 0)).frightened_timer =
      ghost_w5.frightened_timer - 1 ∧
    (ghost_w5.frightened_timer - 1 ≤ 0 →
      (update ghost_w5 pick_head 0 0 (0, 0)).state = GhostState.SCATTER ∧
      (update ghost_w5 pick_head 0 0 (0, 0)).speed = GHOST_SPEED) ∧
    (0 < ghost_w5.frightened_timer - 1 →
      (update ghost_w5 pick_head 0 0 (0, 0)).state = GhostState.FRIGHTENED ∧
      (update ghost_w5 pick_head 0 0 (0, 0)).speed = ghost_w5.speed) :=
  c5_frightened_countdown ghost_w5 pick_head 0 0 (0, 0) rfl

/-- Claim C6: start_frightened is a no-op while eaten or already
frightened, and otherwise enters FRIGHTENED with countdown 600, slow
speed 1 and the facing direction replaced by its opposite, where the
opposite swaps UP with DOWN and LEFT with RIGHT and leaves a direction
with no opposite unchanged. -/
theorem c6_start_frightened (g : Ghost) :
    ((g.state = GhostState.EATEN ∨ g.state = GhostState.FRIGHTENED) →
      start_frightened g = g) ∧
    (g.state ≠ GhostState.EATEN → g.state ≠ GhostState.FRIGHTENED →
      start_frightened g =
        { g with
          state := GhostState.FRIGHTENED
          frightened_timer := 600
          speed := 1
          direction := reverse_direction g.direction }) ∧
    reverse_direction Direction.UP = Direction.DOWN ∧
    reverse_direction Direction.DOWN = Direction.UP ∧
    reverse_direction Direction.LEFT = Direction.RIGHT ∧
    reverse_direction Direction.RIGHT = Direction.LEFT ∧
    reverse_direction Direction.NONE = Direction.NONE := by
  refine ⟨?_, ?_, rfl, rfl, rfl, rfl, rfl⟩
  · intro h
    unfold start_frightened
    rcases h with h | h <;> rw [if_neg] <;> simp [h]
  · intro h1 h2
    unfold start_frightened
    rw [if_pos ⟨h1, h2⟩]

/-- Claim C6 witness: a concrete scatter-state ghost facing left turns
frightened and faces right. -/
theorem c6_start_frightened_witness :
    start_frightened ghost_w6 =
      { ghost_w6 with
        state := GhostState.FRIGHTENED
        frightened_timer := 600
        speed := 1
        direction := reverse_direction ghost_w6.direction } :=
  (c6_start_frightened ghost_w6).2.1 (by simp [ghost_w6, base_ghost])
    (by simp [ghost_w6, base_ghost])

/-- Claim C7 counterexample: a concrete eaten and active ghost whose
tile center coincides with the tile center of the house exit, so its
tile-center distance to the exit is zero and below one tile width, yet
the update call does not respawn it: it stays EATEN and ACTIVE, because
the code compares the raw pixel distance, which here is at least one
tile width. -/
theorem c7_counterexample :
    ghost_c7.state = GhostState.EATEN ∧
    sq_dist (tile_center ghost_c7.position) (tile_center ghost_c7.house_exit) <
      TILE_SIZE ^ 2 ∧
    (update ghost_c7 pick_head 0 0 (0, 0)).state = GhostState.EATEN ∧
    (update ghost_c7 pick_head 0 0 (0, 0)).house_state = GhostHouseState.ACTIVE := by
  have hf : ghost_c7.state ≠ GhostState.FRIGHTENED := by simp [ghost_c7, base_ghost]
  have hr : ¬ (ghost_c7.state = GhostState.EATEN ∧
      Position.distance_to_sq ghost_c7.position ghost_c7.house_exit < TILE_SIZE ^ 2) := by
    norm_num [Position.distance_to_sq, Position.get_center, TILE_SIZE, ghost_c7, base_ghost]
  have hact := update_eq_active ghost_c7 pick_head 0 0 (0, 0) hf hr rfl
  refine ⟨rfl, ?_, ?_, ?_⟩
  · norm_num [tile_center, grid_to_pixel, Position.to_grid, sq_dist, TILE_SIZE,
      ghost_c7, base_ghost]
  · rw [hact, move_state, choose_direction_state]
    rfl
  · rw [hact, move_house_state, choose_direction_house_state]
    rfl

/-- Claim C7 as amended: with the distance taken to be the one that
distance_to actually computes, the raw pixel distance, an eaten ghost
below one tile width of the house exit is respawned by that update
call: SCATTER, base speed, position exactly the spawn point, house
state EXITING, with the navigation target untouched and the facing
reset to UP by the respawn, and no targeting, direction choice or
movement runs. -/
theorem c7_eaten_arrival_amended (g : Ghost) (pick : List Direction → Direction)
    (px py : ℚ) (pd : ℤ × ℤ)
    (h1 : g.state = GhostState.EATEN)
    (h2 : Position.distance_to_sq g.position g.house_exit < TILE_SIZE ^ 2) :
    (update g pick px py pd).state = GhostState.SCATTER ∧
    (update g pick px py pd).speed = GHOST_SPEED ∧
    (update g pick px py pd).position = g.spawn_position ∧
    (update g pick px py pd).house_state = GhostHouseState.EXITING ∧
    (update g pick px py pd).target = g.target ∧
    (update g pick px py pd).direction = Direction.UP := by
  rw [update_eq_respawn g pick px py pd h1 h2]
  exact ⟨rfl, rfl, rfl, rfl, rfl, rfl⟩

/-- Claim C7 witness: a concrete eaten ghost standing exactly on the
house exit point is respawned by the update call. -/
theorem c7_eaten_arrival_witness :
    (update ghost_w7 pick_head 0 0 (0, 0)).state = GhostState.SCATTER ∧
    (update ghost_w7 pick_head 0 0 (0, 0)).speed = GHOST_SPEED ∧
    (update ghost_w7 pick_head 0 0 (0, 0)).position = ghost_w7.spawn_position ∧
    (update ghost_w7 pick_head 0 0 (0, 0)).house_state = GhostHouseState.EXITING ∧
    (update ghost_w7 pick_head 0 0 (0, 0)).target = ghost_w7.target ∧
    (update ghost_w7 pick_head 0 0 (0, 0)).direction = Direction.UP :=
  c7_eaten_arrival_amended ghost_w7 pick_head 0 0 (0, 0) rfl
    (by norm_num [Position.distance_to_sq, Position.get_center, TILE_SIZE,
      ghost_w7, base_ghost])

/-- Claim C9 counterexample: a concrete ghost whose house state is
IN_HOUSE but whose lifecycle state is EATEN while standing on the house
exit: the eaten-arrival reset runs before the IN_HOUSE early exit, so
the update call changes both the position and the facing direction. -/
theorem c9_counterexample :
    ghost_c9.house_state = GhostHouseState.IN_HOUSE ∧
    (update ghost_c9 pick_head 0 0 (0, 0)).position ≠ ghost_c9.position ∧
    (update ghost_c9 pick_head 0 0 (0, 0)).direction ≠ ghost_c9.direction := by
  have h := update_eq_respawn ghost_c9 pick_head 0 0 (0, 0) rfl
    (by norm_num [Position.distance_to_sq, Position.get_center, TILE_SIZE,
      ghost_c9, base_ghost])
  refine ⟨rfl, ?_, ?_⟩
  · rw [h]
    norm_num [respawn_in_house, tick_animation, ghost_c9, base_ghost]
  · rw [h]
    show Direction.UP ≠ ghost_c9.direction
    decide

/-- Claim C9 as amended: an update of a ghost whose house state is
IN_HOUSE leaves its position, facing direction and navigation target
unchanged, unless the ghost is EATEN with its distance_to distance to
the house exit below one tile width, in which case the eaten-arrival
reset, which runs before the IN_HOUSE check, fires instead. -/
theorem c9_in_house_amended (g : Ghost) (pick : List Direction → Direction)
    (px py : ℚ) (pd : ℤ × ℤ)
    (h1 : g.house_state = GhostHouseState.IN_HOUSE)
    (h2 : ¬ (g.state = GhostState.EATEN ∧
      Position.distance_to_sq g.position g.house_exit < TILE_SIZE ^ 2)) :
    (update g pick px py pd).position = g.position ∧
    (update g pick px py pd).direction = g.direction ∧
    (update g pick px py pd).target = g.target := by
  rw [update_eq_in_house g pick px py pd h1 h2]
  exact ⟨by simp, by simp, by simp⟩

/-- Claim C9 witness: a concrete non-eaten ghost waiting in the house
keeps its position, direction and target through an update call. -/
theorem c9_in_house_witness :
    (update ghost_w9 pick_head 0 0 (0, 0)).position = ghost_w9.position ∧
    (update ghost_w9 pick_head 0 0 (0, 0)).direction = ghost_w9.direction ∧
    (update ghost_w9 pick_head 0 0 (0, 0)).target = ghost_w9.target :=
  c9_in_house_amended ghost_w9 pick_head 0 0 (0, 0) rfl
    (by simp [ghost_w9, base_ghost])

/-- Claim C8: the pincer target is the partner position plus twice the
vector from the partner to the point two tiles ahead of the player,
with the worked example of the spec, and a missing partner reference
degrades to the direct-chaser target. -/
theorem c8_inky_pincer :
    (∀ (b : ℚ × ℚ) (px py : ℚ) (pd : ℤ × ℤ),
      inky_calculate_target (some b) px py pd =
        (b.1 + 2 * ((px + (pd.1 : ℚ) * (INKY_OFFSET_TILES * TILE_SIZE)) - b.1),
          b.2 + 2 * ((py + (pd.2 : ℚ) * (INKY_OFFSET_TILES * TILE_SIZE)) - b.2))) ∧
    (∀ (px py : ℚ) (pd : ℤ × ℤ), inky_calculate_target none px py pd = (px, py)) ∧
    inky_calculate_target (some (60, 60)) 100 100 (1, 0) = (220, 140) := by
  refine ⟨?_, fun _ _ _ => rfl, ?_⟩
  · intro b px py pd
    simp only [inky_calculate_target, Prod.mk.injEq]
    constructor <;> ring
  · norm_num [inky_calculate_target, INKY_OFFSET_TILES, TILE_SIZE]

/-- Claim C10: get_eaten is unguarded: from every prior state it sets
the lifecycle state to EATEN and the speed to the fast return value 4,
and changes no other field. -/
theorem c10_get_eaten_unguarded (g : Ghost) :
    (get_eaten g).state = GhostState.EATEN ∧
    (get_eaten g).speed = 4 ∧
    (get_eaten g).position = g.position ∧
    (get_eaten g).direction = g.direction ∧
    (get_eaten g).house_state = g.house_state ∧
    (get_eaten g).frightened_timer = g.frightened_timer ∧
    (get_eaten g).target = g.target ∧
    (get_eaten g).spawn_position = g.spawn_position ∧
    (get_eaten g).house_exit = g.house_exit ∧
    (get_eaten g).animation_frame = g.animation_frame :=
  ⟨rfl, rfl, rfl, rfl, rfl, rfl, rfl, rfl, rfl, rfl⟩

end PycMan
